import Mathlib

/-!
Verification of the n8n OpenInference tracing core.

This file is a shallow embedding, in Lean 4, of the tracing core of the
repository (src/tracing/openinference-mapper.js and src/tracing/tracing.js):

* a small model of JavaScript runtime values (`JVal`) with the truthiness,
  property-access and iteration rules the source relies on;
* the span-kind classifier `mapNodeToSpanKind` with its three tiers
  (exact-match table `EXACT_SETS`, ordered pattern rules `REGEX_RULES`,
  `categoryFallback`);
* the I/O helpers `truncateIOStr` (from `truncateIO`), `sanitizeSegment`,
  `extractNodeInputFromExecutionData` and `extractNodeOutput`;
* the span lifecycle of the two patched engine entry points
  (`processRunExecutionData` and `runNode`), modelled as pure functions from
  the wrapped call's outcome to the log of span operations; and
* the module-load initialization guard.

JavaScript strings are modelled as Lean `String`; the handful of string
operations used by the source (trim, lower-casing, slicing) are implemented
on `List Char` so that they evaluate inside the kernel. Regular expressions
in the source are all alternations of plain substrings (plus one anchored
`^lm[a-z]`), and are embedded as the corresponding decidable predicates.
-/

/-- Model of a JavaScript runtime value, sufficient for the shapes the
tracing core manipulates (JSON-like data plus `undefined` and `null`). -/
inductive JVal where
  | undefVal
  | jsNull
  | jsBool (b : Bool)
  | num (n : Int)
  | str (s : String)
  | arr (elems : List JVal)
  | obj (fields : List (String × JVal))

/-- JavaScript truthiness: `undefined`, `null`, `false`, `0` and `""` are
falsy; every array and object is truthy. -/
def truthy : JVal → Bool
  | .undefVal => false
  | .jsNull => false
  | .jsBool b => b
  | .num n => !(n == 0)
  | .str s => !(s == "")
  | .arr _ => true
  | .obj _ => true

/-- Property access `v[k]` on a value that is not `null`/`undefined`:
objects look up the first field with the given name, arrays and strings
expose `length`, every other access yields `undefined`. (JavaScript boxes
primitives, so property access on them does not throw.) -/
def getField : JVal → String → JVal
  | .obj fields, k =>
    match fields.find? (fun p => p.1 == k) with
    | some p => p.2
    | none => .undefVal
  | .arr l, k => if k == "length" then .num l.length else .undefVal
  | .str s, k => if k == "length" then .num s.length else .undefVal
  | _, _ => .undefVal

/-- Optional chaining `v?.k`: `undefined` when `v` is `null` or `undefined`,
ordinary property access otherwise. -/
def optChain (v : JVal) (k : String) : JVal :=
  match v with
  | .undefVal => .undefVal
  | .jsNull => .undefVal
  | _ => getField v k

/-- The JavaScript `a || b` operator. -/
def jsOr (a b : JVal) : JVal := if truthy a then a else b

/-- `for (const x of v)`: arrays iterate their elements, strings iterate
their characters (as one-character strings); anything else throws a
`TypeError`, modelled as the error case. -/
def jsIterate : JVal → Except String (List JVal)
  | .arr l => .ok l
  | .str s => .ok (s.toList.map (fun c => .str (String.mk [c])))
  | _ => .error "TypeError: value is not iterable"

/-! ## Character-list string operations

The source uses `String.prototype.trim`, `toLowerCase`, `slice` and two
`replace` calls with regular expressions. They are modelled on `List Char`
(ASCII-faithful) so that closed instances evaluate by `rfl`/`decide`. -/

/-- Lower-casing, character by character (ASCII letters). -/
def jsToLower (s : String) : String := String.mk (s.toList.map Char.toLower)

/-- `str.slice(0, n)`. -/
def jsSlice (s : String) (n : Nat) : String := String.mk (s.toList.take n)

/-- Leading and trailing whitespace removal (`String.prototype.trim`). -/
def trimChars (l : List Char) : List Char :=
  ((l.dropWhile Char.isWhitespace).reverse.dropWhile Char.isWhitespace).reverse

/-! ## Span-kind classifier (src/tracing/openinference-mapper.js) -/

/-- The ten valid OpenInference span kinds (`SPAN_KINDS`). -/
def SPAN_KINDS : List String :=
  ["LLM", "EMBEDDING", "CHAIN", "RETRIEVER", "RERANKER",
   "TOOL", "AGENT", "GUARDRAIL", "EVALUATOR", "PROMPT"]

/-- The exact-match tier `EXACT_SETS`, as the ordered association list the
source iterates with `Object.entries` (insertion order). -/
def EXACT_SETS : List (String × List String) :=
  [("AGENT", ["Agent", "AgentTool"]),
   ("LLM", ["LmChatOpenAi", "LmOpenAi", "OpenAi", "Anthropic", "GoogleGemini",
            "Groq", "Perplexity", "LmChatAnthropic", "LmChatGoogleGemini",
            "LmChatMistralCloud", "LmChatOpenRouter", "LmChatXAiGrok",
            "OpenAiAssistant"]),
   ("EMBEDDING", ["EmbeddingsAwsBedrock", "EmbeddingsAzureOpenAi",
                  "EmbeddingsCohere", "EmbeddingsGoogleGemini",
                  "EmbeddingsGoogleVertex", "EmbeddingsHuggingFaceInference",
                  "EmbeddingsMistralCloud", "EmbeddingsOllama",
                  "EmbeddingsOpenAi"]),
   ("RETRIEVER", ["RetrieverContextualCompression", "RetrieverMultiQuery",
                  "RetrieverVectorStore", "RetrieverWorkflow",
                  "MemoryChatRetriever", "VectorStoreInMemory",
                  "VectorStoreInMemoryInsert", "VectorStoreInMemoryLoad",
                  "VectorStoreMilvus", "VectorStoreMongoDBAtlas",
                  "VectorStorePGVector", "VectorStorePinecone",
                  "VectorStorePineconeInsert", "VectorStorePineconeLoad",
                  "VectorStoreQdrant", "VectorStoreSupabase",
                  "VectorStoreSupabaseInsert", "VectorStoreSupabaseLoad",
                  "VectorStoreWeaviate", "VectorStoreZep",
                  "VectorStoreZepInsert", "VectorStoreZepLoad"]),
   ("RERANKER", ["RerankerCohere"]),
   ("EVALUATOR", ["SentimentAnalysis", "TextClassifier",
                  "InformationExtractor", "OutputParserAutofixing"]),
   ("GUARDRAIL", ["GooglePerspective", "AwsRekognition"]),
   ("CHAIN", ["ChainLlm", "ChainRetrievalQa", "ChainSummarization",
              "ToolWorkflow", "ToolExecutor", "ModelSelector",
              "OutputParserStructured", "OutputParserItemList",
              "TextSplitterCharacterTextSplitter",
              "TextSplitterRecursiveCharacterTextSplitter",
              "TextSplitterTokenSplitter", "ToolThink"])]

/-- Case-sensitive exact-table lookup: the first entry whose set contains
the node type, exactly as the source's `for (const [spanKind, set] of
Object.entries(EXACT_SETS)) if (set.has(original)) return spanKind`. -/
def exactLookup (t : String) : Option String :=
  (EXACT_SETS.find? (fun e => e.2.contains t)).map (fun e => e.1)

/-- Does `pat` occur as a contiguous substring of `s` (on character lists)? -/
def hasInfix (s pat : List Char) : Bool :=
  pat.isPrefixOf s ||
    match s with
    | [] => false
    | _ :: t => hasInfix t pat

/-- Substring test on strings, used to embed alternation-of-literal regexes. -/
def containsStr (s pat : String) : Bool := hasInfix s.toList pat.toList

/-- The regex `/trigger/i`, applied (as in the source) to the lower-cased
node type. -/
def patTrigger (lower : String) : Bool := containsStr lower "trigger"

/-- The regex `/agent/i`. -/
def patAgent (lower : String) : Bool := containsStr lower "agent"

/-- The regex `/embedding/i`. -/
def patEmbedding (lower : String) : Bool := containsStr lower "embedding"

/-- The regex `/(retriev|vectorstore)/i`. -/
def patRetriever (lower : String) : Bool :=
  containsStr lower "retriev" || containsStr lower "vectorstore"

/-- The regex `/rerank/i`. -/
def patReranker (lower : String) : Bool := containsStr lower "rerank"

/-- The anchored alternative `^lm[a-z]` of the LLM regex: the string starts
with `lm` followed by a lowercase letter. -/
def startsLmLetter (lower : String) : Bool :=
  match lower.toList with
  | 'l' :: 'm' :: c :: _ => decide ('a' ≤ c) && decide (c ≤ 'z')
  | _ => false

/-- The regex `/(lmchat|^lm[a-z]|chat|openai|anthropic|gemini|mistral|groq|cohere)/i`. -/
def patLlm (lower : String) : Bool :=
  containsStr lower "lmchat" || startsLmLetter lower ||
  containsStr lower "chat" || containsStr lower "openai" ||
  containsStr lower "anthropic" || containsStr lower "gemini" ||
  containsStr lower "mistral" || containsStr lower "groq" ||
  containsStr lower "cohere"

/-- The regex `/tool/` (no `i` flag; the tested string is already
lower-cased, so this is a plain substring test). -/
def patToolRule (lower : String) : Bool := containsStr lower "tool"

/-- The regex `/(chain|textsplitter|parser|memory|workflow)/i`. -/
def patChainHeuristic (lower : String) : Bool :=
  containsStr lower "chain" || containsStr lower "textsplitter" ||
  containsStr lower "parser" || containsStr lower "memory" ||
  containsStr lower "workflow"

/-- The regex `/(classif|sentiment|extract)/i`. -/
def patEvaluator (lower : String) : Bool :=
  containsStr lower "classif" || containsStr lower "sentiment" ||
  containsStr lower "extract"

/-- The regex `/(perspective|rekognition|moderation|guardrail)/i`. -/
def patGuardrail (lower : String) : Bool :=
  containsStr lower "perspective" || containsStr lower "rekognition" ||
  containsStr lower "moderation" || containsStr lower "guardrail"

/-- The ordered pattern tier `REGEX_RULES`. Order is the source's order;
the trigger rule comes first. -/
def REGEX_RULES : List (String × (String → Bool)) :=
  [("CHAIN", patTrigger),
   ("AGENT", patAgent),
   ("EMBEDDING", patEmbedding),
   ("RETRIEVER", patRetriever),
   ("RERANKER", patReranker),
   ("LLM", patLlm),
   ("TOOL", patToolRule),
   ("CHAIN", patChainHeuristic),
   ("EVALUATOR", patEvaluator),
   ("GUARDRAIL", patGuardrail)]

/-- First matching pattern rule wins (`for (const rule of REGEX_RULES) if
(rule.pattern.test(lower)) return rule.kind`). -/
def regexFirst (lower : String) : Option String :=
  (REGEX_RULES.find? (fun rule => rule.2 lower)).map (fun rule => rule.1)

/-- The `INTERNAL_LOGIC` set of core-node identifiers. -/
def INTERNAL_LOGIC : List String :=
  ["If", "Switch", "Set", "Move", "Rename", "Wait", "WaitUntil", "Function",
   "FunctionItem", "Code", "NoOp", "ExecuteWorkflow", "SubworkflowTo"]

/-- The category-fallback tier `categoryFallback(type, category)`. The
`switch` compares the category value with `===`, so only exact string
matches hit a case; any other value falls to `default` (`undefined`). -/
def categoryFallback (type : String) (category : JVal) : Option String :=
  match category with
  | .str "Trigger Nodes" => some "CHAIN"
  | .str "Transform Nodes" => some "CHAIN"
  | .str "AI/LangChain Nodes" => some "CHAIN"
  | .str "Core Nodes" =>
    if INTERNAL_LOGIC.contains type then some "CHAIN"
    else if type == "Schedule" || type == "Cron" then some "CHAIN"
    else some "TOOL"
  | _ => none

/-- The `nodeType` argument of `mapNodeToSpanKind`. The source's guard
`if (!nodeType || typeof nodeType !== 'string') return undefined` treats
every absent or non-string value uniformly, so those are collapsed into
two constructors; strings keep their value (the guard additionally rejects
the empty string, which is falsy). -/
inductive NodeTypeArg where
  | absent
  | nonString
  | str (s : String)

/-- The classifier `mapNodeToSpanKind(nodeType, nodeAttributes)`:
tier 0 (guard), tier 1 `EXACT_SETS`, tier 2 `REGEX_RULES` over the
lower-cased type, tier 3 `categoryFallback` on
`nodeAttributes?.['n8n.node.category'] || nodeAttributes?.['n8n.node.category_raw']`,
then `undefined`. -/
def mapNodeToSpanKind (nodeType : NodeTypeArg) (nodeAttributes : JVal) : Option String :=
  match nodeType with
  | .absent => none
  | .nonString => none
  | .str s =>
    if s == "" then none
    else
      match exactLookup s with
      | some k => some k
      | none =>
        match regexFirst (jsToLower s) with
        | some k => some k
        | none =>
          let category :=
            jsOr (optChain nodeAttributes "n8n.node.category")
                 (optChain nodeAttributes "n8n.node.category_raw")
          match categoryFallback s category with
          | some k => if k == "" then none else some k
          | none => none

/-- The caller-side defaulting in `runNode`: `spanKind` is computed by the
classifier only when `MAP_OPENINFERENCE_SPAN_KINDS` is enabled, and
`if (!spanKind) spanKind = 'CHAIN'` replaces a falsy result with CHAIN. -/
def nodeSpanKindOf (mapFlag : Bool) (nodeType : NodeTypeArg) (nodeAttributes : JVal) : String :=
  match (if mapFlag then mapNodeToSpanKind nodeType nodeAttributes else none) with
  | some k => if k == "" then "CHAIN" else k
  | none => "CHAIN"

/-! ## I/O helper utilities (src/tracing/tracing.js) -/

/-- `truncateIO(str)` with the configured character cap `MAX_IO_CHARS`
passed explicitly (the source reads it from `TRACING_MAX_IO_CHARS`,
default 12000). A `null`/`undefined` payload (the `none` case) becomes the
empty string; a string of length at most `cap` is returned unchanged;
a longer string is cut to its first `cap` characters and suffixed with a
marker recording the number of elided characters. -/
def truncateIOStr (cap : Nat) (s : Option String) : String :=
  match s with
  | none => ""
  | some str =>
    if str.length ≤ cap then str
    else jsSlice str cap ++ "...[truncated " ++ toString (str.length - cap) ++ " chars]"

/-- Is the character in the class `[a-zA-Z0-9._-]` kept by
`sanitizeSegment`'s second `replace`? -/
def isSegmentChar (c : Char) : Bool :=
  (decide ('a' ≤ c) && decide (c ≤ 'z')) ||
  (decide ('A' ≤ c) && decide (c ≤ 'Z')) ||
  (decide ('0' ≤ c) && decide (c ≤ '9')) ||
  c == '.' || c == '_' || c == '-'

/-- One-pass embedding of `replace(/\s+/g, '-')`: the flag records whether
the previous character belonged to a whitespace run whose hyphen has
already been emitted. -/
def collapseWsAux : Bool → List Char → List Char
  | _, [] => []
  | prevWs, c :: cs =>
    if c.isWhitespace then
      if prevWs then collapseWsAux true cs
      else '-' :: collapseWsAux true cs
    else c :: collapseWsAux false cs

/-- `sanitizeSegment(value, def = 'unknown')`: falsy input (absent or the
empty string) yields the default; otherwise trim, replace each whitespace
run with one hyphen, replace each character outside `[a-zA-Z0-9._-]` with
a hyphen, slice to 80 characters, and fall back to the default if the
result is empty. -/
def sanitizeSegment (value : Option String) (d : String) : String :=
  match value with
  | none => d
  | some s =>
    if s == "" then d
    else
      let core :=
        ((collapseWsAux false (trimChars s.toList)).map
          (fun c => if isSegmentChar c then c else '-')).take 80
      if core == [] then d else String.mk core

/-- The records actually collected from one connection's item list:
`if (item?.json) allItems.push(item.json)`. -/
def collectConnItems (items : List JVal) : List JVal :=
  items.filterMap (fun it =>
    let j := optChain it "json"
    if truthy j then some j else none)

/-- The input extractor's loop over `mainInputs`: falsy connections are
skipped (`if (!connection) continue`); iterating a non-iterable connection
throws, which aborts the loop. -/
def collectAllConns (acc : List JVal) : List JVal → Except String (List JVal)
  | [] => .ok acc
  | connection :: rest =>
    if truthy connection = false then collectAllConns acc rest
    else
      match jsIterate connection with
      | .error e => .error e
      | .ok items => collectAllConns (acc ++ collectConnItems items) rest

/-- The body of `extractNodeInputFromExecutionData` (the code inside the
`try`): reads `executionData?.data?.main`, returns `undefined` on a falsy
or length-less value, flattens all connections, unwraps a single item, and
can raise (the error case) when a truthy `mainInputs` or connection is not
iterable. -/
def extractNodeInputBody (executionData : JVal) : Except String JVal :=
  let mainInputs := optChain (optChain executionData "data") "main"
  if truthy mainInputs = false then .ok .undefVal
  else if truthy (getField mainInputs "length") = false then .ok .undefVal
  else
    match jsIterate mainInputs with
    | .error e => .error e
    | .ok conns =>
      match collectAllConns [] conns with
      | .error e => .error e
      | .ok allItems =>
        match allItems with
        | [] => .ok .undefVal
        | [x] => .ok x
        | xs => .ok (.arr xs)

/-- `extractNodeInputFromExecutionData(executionData)`: the `try` body with
its `catch (e) { return { _error: String(e) } }` wrapper. The extractor
itself is a total function - an exception in the body never escapes. -/
def extractNodeInputFromExecutionData (executionData : JVal) : JVal :=
  match extractNodeInputBody executionData with
  | .ok v => v
  | .error e => .obj [("_error", .str e)]

/-- The output extractor's loop: connections that are not arrays are
skipped (`if (!Array.isArray(connection)) continue`), so this loop cannot
throw. -/
def collectArrayConns : List JVal → List JVal
  | [] => []
  | connection :: rest =>
    match connection with
    | .arr items => collectConnItems items ++ collectArrayConns rest
    | _ => collectArrayConns rest

/-- The body of `extractNodeOutput` (the code inside the `try`): accepts
either `result.data` as an array of output connections or the
`{ main: [...] }` wrapper, derives the `primary` convenience scalar from
the first record by probing `output`/`completion`/`text`/`result`/`response`,
and caps the item list at 10. Every iteration is guarded by
`Array.isArray`, so this body never raises. -/
def extractNodeOutputBody (result : JVal) : Except String JVal :=
  if truthy result = false then .ok .undefVal
  else
    let data := getField result "data"
    let allItems :=
      match data with
      | .arr conns => collectArrayConns conns
      | .obj _ =>
        match getField data "main" with
        | .arr conns => collectArrayConns conns
        | _ => []
      | _ => []
    match allItems with
    | [] => .ok .undefVal
    | first :: _ =>
      let primary :=
        match first with
        | .obj _ =>
          jsOr (getField first "output") (jsOr (getField first "completion")
            (jsOr (getField first "text") (jsOr (getField first "result")
              (jsOr (getField first "response") .undefVal))))
        | .arr _ =>
          jsOr (getField first "output") (jsOr (getField first "completion")
            (jsOr (getField first "text") (jsOr (getField first "result")
              (jsOr (getField first "response") .undefVal))))
        | _ => .undefVal
      .ok (.obj [("primary", primary), ("items", .arr (allItems.take 10))])

/-- `extractNodeOutput(result)`: the `try` body with its
`catch (e) { return { _error: String(e) } }` wrapper. -/
def extractNodeOutput (result : JVal) : JVal :=
  match extractNodeOutputBody result with
  | .ok v => v
  | .error e => .obj [("_error", .str e)]

/-! ## Span lifecycle of the two patched entry points (src/tracing/tracing.js)

The wrappers are modelled as pure functions from the wrapped call's outcome
to the log of operations performed on the span started for the invocation.
The `processRunExecutionData` wrapper attaches `.then(onResolve, onReject)`
and `.finally(() => span.end())` to the cancelable returned by the original;
the `runNode` wrapper awaits the original inside
`try ... catch ... finally { nodeSpan.end() }`. The attribute blocks that
can throw in the source are wrapped there in their own `try`/`catch` and
only ever set attributes, never status or end, which the model reflects. -/

/-- OpenTelemetry span status codes. -/
inductive SpanStatusCode where
  | unset
  | ok
  | error
  deriving DecidableEq, Repr

/-- The observable log of one span: attribute keys (creation-time and
later `setAttribute` calls), the number of `recordException` calls, each
`setStatus` call in order, and the number of `end` calls. -/
structure SpanLog where
  attrs : List String
  exceptions : Nat
  statusLog : List SpanStatusCode
  endCount : Nat
  deriving DecidableEq, Repr

/-- `tracer.startSpan` / `tracer.startActiveSpan` with initial attributes. -/
def startSpan (initialAttrs : List String) : SpanLog :=
  { attrs := initialAttrs, exceptions := 0, statusLog := [], endCount := 0 }

/-- `span.setStatus({ code })`. -/
def setStatus (c : SpanStatusCode) (sp : SpanLog) : SpanLog :=
  { sp with statusLog := sp.statusLog ++ [c] }

/-- `span.recordException(err)`. -/
def recordException (sp : SpanLog) : SpanLog :=
  { sp with exceptions := sp.exceptions + 1 }

/-- `span.setAttribute(k, v)` (the model tracks keys). -/
def setAttr (k : String) (sp : SpanLog) : SpanLog :=
  { sp with attrs := sp.attrs ++ [k] }

/-- `span.end()`. -/
def endSpan (sp : SpanLog) : SpanLog :=
  { sp with endCount := sp.endCount + 1 }

/-- `span.attributes?.[k] === undefined` test used by the source. -/
def hasAttr (sp : SpanLog) (k : String) : Bool := sp.attrs.contains k

/-- The status a span reports once ended: the last `setStatus` wins
(OpenTelemetry keeps the latest status), `unset` if none was set. -/
def finalStatus (sp : SpanLog) : SpanStatusCode :=
  sp.statusLog.getLast?.getD .unset

/-- Outcome of the wrapped `processRunExecutionData` call (a cancelable
promise): it either resolves with the run result - which may carry an
engine-reported error at `result.data.resultData.error` - or rejects. -/
inductive WfOutcome where
  | resolved (result : JVal)
  | rejected (err : JVal)

/-- Outcome of the wrapped `runNode` call: the awaited promise either
resolves with an `IRunNodeResponse` or rejects/throws. -/
inductive NodeOutcome where
  | resolved (result : JVal)
  | rejected (err : JVal)

/-- `result?.data?.resultData?.error`, the engine-reported domain error the
workflow wrapper inspects on resolution. -/
def wfDomainError (result : JVal) : JVal :=
  optChain (optChain (optChain result "data") "resultData") "error"

/-- A JavaScript property key (the string a non-string key is coerced to in
`runData[lastNode]`). Arrays are approximated by a comma join of element
keys, close enough for the shapes the engine produces (keys are strings). -/
def jsKey : JVal → String
  | .undefVal => "undefined"
  | .jsNull => "null"
  | .jsBool true => "true"
  | .jsBool false => "false"
  | .num n => toString n
  | .str s => s
  | .arr _ => ""
  | .obj _ => "[object Object]"

/-- `lastNodeRuns[lastNodeRuns.length - 1]`: the last element of an array;
on a non-array the index expression is `NaN`/`undefined`, so the access
yields `undefined`. -/
def jsIndexLast : JVal → JVal
  | .arr l => (l.getLast?).getD .undefVal
  | _ => .undefVal

/-- The body of the workflow wrapper's output-capture block (inside its own
`try`): walk `result?.data?.resultData` to the last-executed node's last
run and collect that run's `data.main` output records. Iterating a truthy
non-iterable `mainOutputs` throws (the error case), which the surrounding
`catch` turns into a logged warning with no attributes set. -/
def wfCaptureBody (result : JVal) : Except String (List JVal) :=
  let resultData := optChain (optChain result "data") "resultData"
  let runData := optChain resultData "runData"
  let lastNode := optChain resultData "lastNodeExecuted"
  if truthy runData && truthy lastNode then
    let lastNodeRuns := getField runData (jsKey lastNode)
    if truthy lastNodeRuns then
      let lastRun := jsIndexLast lastNodeRuns
      let mainOutputs := optChain (optChain lastRun "data") "main"
      if truthy mainOutputs then
        match jsIterate mainOutputs with
        | .error e => .error e
        | .ok conns => collectAllConns [] conns
      else .ok []
    else .ok []
  else .ok []

/-- The workflow wrapper's resolution handler: record the engine-reported
error and set error status, or set ok status; then, when capture is
enabled, attach the final node's output (if any was collected) and a
minimal input payload when none is present. -/
def wfOnResolve (capture : Bool) (result : JVal) (sp : SpanLog) : SpanLog :=
  let sp :=
    if truthy (wfDomainError result) then setStatus .error (recordException sp)
    else setStatus .ok sp
  if capture then
    let sp :=
      match wfCaptureBody result with
      | .ok outputItems =>
        if outputItems.isEmpty then sp
        else setAttr "output.mime_type" (setAttr "output.value" sp)
      | .error _ => sp
    if hasAttr sp "input.value" then sp
    else setAttr "input.mime_type" (setAttr "input.value" sp)
  else sp

/-- The workflow wrapper's rejection handler. -/
def wfOnReject (sp : SpanLog) : SpanLog :=
  setStatus .error (recordException sp)

/-- Attribute keys the workflow span is created with (`workflowAttributes`;
the flattened settings keys all carry the `n8n.workflow.settings.` prefix
and are immaterial to the lifecycle, so they are not enumerated). -/
def wfInitialAttrKeys : List String :=
  ["openinference.span.kind", "session.id", "n8n.workflow.id",
   "n8n.workflow.name", "n8n.execution.id", "metadata"]

/-- The span lifecycle of one `processRunExecutionData` invocation: start
the span, run the `.then(onResolve, onReject)` handler selected by the
outcome, then the `.finally(() => span.end())`. -/
def processRunExecutionDataSpan (capture : Bool) (outcome : WfOutcome) : SpanLog :=
  let sp := startSpan wfInitialAttrKeys
  let sp :=
    match outcome with
    | .resolved result => wfOnResolve capture result sp
    | .rejected _ => wfOnReject sp
  endSpan sp

/-- Attribute keys the node span is created with (`nodeAttributes`; the
flattened node keys all carry the `n8n.node.` prefix). -/
def nodeInitialAttrKeys : List String :=
  ["openinference.span.kind", "session.id", "user.id", "n8n.workflow.id",
   "n8n.execution.id", "n8n.node.name", "metadata"]

/-- The node wrapper's pre-invocation input capture (inside its own
`try`/`catch`): attach `input.value`/`input.mime_type` when the extractor
finds a value, plus a synthesized user message for LLM spans when a
conventional single-message field is present. Returns the keys set. -/
def nodeCaptureInputAttrs (spanKind : String) (executionData : JVal) : List String :=
  let inputObj := extractNodeInputFromExecutionData executionData
  if truthy inputObj then
    ["input.value", "input.mime_type"] ++
      (if spanKind == "LLM" then
        let inputData :=
          match inputObj with
          | .arr l => l.headD .undefVal
          | v => v
        let userContent :=
          jsOr (optChain inputData "chatInput") (jsOr (optChain inputData "text")
            (jsOr (optChain inputData "prompt") (optChain inputData "query")))
        if truthy userContent then
          ["llm.input_messages.0.message.role", "llm.input_messages.0.message.content"]
        else []
      else [])
  else []

/-- The node wrapper's post-success output capture (inside its own
`try`/`catch`): attach `output.value`/`output.mime_type` when the extractor
finds a value, plus a synthesized assistant message for LLM spans when a
primary scalar was derived. Returns the keys set. -/
def nodeCaptureOutputAttrs (spanKind : String) (result : JVal) : List String :=
  let extracted := extractNodeOutput result
  if truthy extracted then
    ["output.value", "output.mime_type"] ++
      (if spanKind == "LLM" && truthy (getField extracted "primary") then
        ["llm.output_messages.0.message.role", "llm.output_messages.0.message.content"]
      else [])
  else []

/-- The span lifecycle of one `runNode` invocation: start the active span,
capture input when enabled, then `try { await original; capture output;
setStatus OK } catch { recordException; setStatus ERROR; set error
attribute; rethrow } finally { end }`. -/
def runNodeSpan (capture : Bool) (spanKind : String) (executionData : JVal)
    (outcome : NodeOutcome) : SpanLog :=
  let sp := startSpan nodeInitialAttrKeys
  let sp :=
    if capture then
      (nodeCaptureInputAttrs spanKind executionData).foldl (fun s k => setAttr k s) sp
    else sp
  match outcome with
  | .resolved result =>
    let sp :=
      if capture then
        (nodeCaptureOutputAttrs spanKind result).foldl (fun s k => setAttr k s) sp
      else sp
    endSpan (setStatus .ok sp)
  | .rejected _ =>
    endSpan (setAttr "n8n.node.status" (setStatus .error (recordException sp)))

/-- The value the `runNode` wrapper hands back to the engine: the wrapped
call's own result on resolution, the unchanged failure rethrown on
rejection (`throw error` in the `catch` block). -/
def runNodeWrapperResult (outcome : NodeOutcome) : Except JVal JVal :=
  match outcome with
  | .resolved result => .ok result
  | .rejected err => .error err

/-! ## Initialization guard (src/tracing/tracing.js, module top level) -/

/-- Process-wide state the guard reads and writes: the in-memory flag
`global.__n8nTracingInitialized`, the environment flag
`process.env.__N8N_TRACING_INITIALIZED`, the SDK flag
`process.__n8nOtelSDKStarted`, and how many times each of the two engine
entry points has been wrapped. -/
structure ProcState where
  globalFlag : Bool
  envFlag : Option String
  sdkFlag : Bool
  installedProcessRun : Nat
  installedRunNode : Nat
  deriving DecidableEq, Repr

/-- `ALREADY_INITIALIZED`: any of the three signals suffices (the
environment flag is compared against the string `'true'`). -/
def alreadyInitialized (s : ProcState) : Bool :=
  s.globalFlag || s.envFlag == some "true" || s.sdkFlag

/-- One load of the instrumentation module: a no-op when the guard fires,
otherwise set all three signals and run `initializeTracing()`, which
installs the two wrappers (`setupN8nOpenTelemetry`) once. -/
def loadTracingModule (s : ProcState) : ProcState :=
  if alreadyInitialized s then s
  else
    { globalFlag := true
      envFlag := some "true"
      sdkFlag := true
      installedProcessRun := s.installedProcessRun + 1
      installedRunNode := s.installedRunNode + 1 }

/-- A freshly started process: no signal set, no wrapper installed. -/
def freshProcess : ProcState :=
  { globalFlag := false, envFlag := none, sdkFlag := false,
    installedProcessRun := 0, installedRunNode := 0 }

/-! ## Claim-comparison definitions

These definitions follow the wording of spec sentences, to be compared with
the definitions above that were translated from the source. -/

/-- The meaning of `replace(/\s+/g, '-')` stated run-wise, following the
spec's words: each maximal run of whitespace becomes a single hyphen. -/
def collapseRuns : List Char → List Char
  | [] => []
  | c :: cs =>
    if c.isWhitespace then '-' :: collapseRuns (cs.dropWhile Char.isWhitespace)
    else c :: collapseRuns cs
termination_by l => l.length
decreasing_by
  · simp only [List.length_cons]
    have hle : ∀ l : List Char, (l.dropWhile Char.isWhitespace).length ≤ l.length := by
      intro l
      induction l with
      | nil => simp [List.dropWhile]
      | cons a t ih =>
        by_cases h : Char.isWhitespace a
        · simp only [List.dropWhile, h]
          exact Nat.le_succ_of_le ih
        · simp [List.dropWhile, h]
    exact Nat.lt_succ_of_le (hle _)
  · simp only [List.length_cons]
    exact Nat.lt_succ_self _

/-- Segment sanitization as the spec's sentence reads, with one word taken
literally: characters outside `[A-Za-z0-9._-]` are STRIPPED (removed)
rather than replaced. Compared against `sanitizeSegment` for claim C8. -/
def sanitizeSegmentStripClaim (value : Option String) (d : String) : String :=
  match value with
  | none => d
  | some s =>
    if s == "" then d
    else
      let core :=
        ((collapseWsAux false (trimChars s.toList)).filter isSegmentChar).take 80
      if core == [] then d else String.mk core

/-- Segment sanitization restated from the amended claim: trim, collapse
each maximal whitespace run to one hyphen, substitute a hyphen for (not
strip) each character outside `[A-Za-z0-9._-]`, cap to 80 characters,
default when empty or absent. -/
def sanitizeSegmentRunsSpec (value : Option String) (d : String) : String :=
  match value with
  | none => d
  | some s =>
    if s == "" then d
    else
      let core :=
        ((collapseRuns (trimChars s.toList)).map
          (fun c => if isSegmentChar c then c else '-')).take 80
      if core == [] then d else String.mk core

/-- The input extraction claim C7 takes as given: a named mapping of
connection-name to item-slots, with every record across EVERY named
connection collected. Compared against the source extractor, which reads
only the `main` connection. -/
def extractNodeInputClaimed (executionData : JVal) : JVal :=
  match optChain executionData "data" with
  | .obj fields =>
    let jsons :=
      (fields.map (fun nv =>
        match nv.2 with
        | .arr slots =>
          slots.foldl (fun acc slot =>
            match slot with
            | .arr items => acc ++ collectConnItems items
            | _ => acc) []
        | _ => [])).flatten
    match jsons with
    | [] => .undefVal
    | [x] => x
    | xs => .arr xs
  | _ => .undefVal

/-! ## Classifier properties -/

theorem exactLookup_mem_SPAN_KINDS (t k : String) (h : exactLookup t = some k) :
    k ∈ SPAN_KINDS := by
  unfold exactLookup at h
  cases hf : EXACT_SETS.find? (fun e => e.2.contains t) with
  | none => rw [hf] at h; cases h
  | some e =>
    rw [hf] at h
    injection h with h
    have hm := List.mem_of_find?_eq_some hf
    have hall : ∀ e ∈ EXACT_SETS, e.1 ∈ SPAN_KINDS := by decide
    exact h ▸ hall e hm

theorem regexFirst_mem_SPAN_KINDS (lower k : String)
    (h : regexFirst lower = some k) : k ∈ SPAN_KINDS := by
  unfold regexFirst at h
  cases hf : REGEX_RULES.find? (fun rule => rule.2 lower) with
  | none => rw [hf] at h; cases h
  | some rule =>
    rw [hf] at h
    injection h with h
    have hm := List.mem_of_find?_eq_some hf
    subst h
    simp only [REGEX_RULES, List.mem_cons, List.not_mem_nil, or_false] at hm
    rcases hm with rfl | rfl | rfl | rfl | rfl | rfl | rfl | rfl | rfl | rfl <;> decide

theorem categoryFallback_mem_SPAN_KINDS (t : String) (c : JVal) (k : String)
    (h : categoryFallback t c = some k) : k ∈ SPAN_KINDS := by
  unfold categoryFallback at h
  split at h
  · injection h with h; subst h; decide
  · injection h with h; subst h; decide
  · injection h with h; subst h; decide
  · split at h
    · injection h with h; subst h; decide
    · split at h
      · injection h with h; subst h; decide
      · injection h with h; subst h; decide
  · cases h

/-- C3: the classifier is pure and total: for every node-type argument
(including absent and non-string values) and every attribute bag it
returns either one of the ten enumerated span kinds or the no-match
sentinel (`none`), and an absent or non-string node type yields no match
immediately. Purity and absence of exceptions are structural: the
embedding is a total Lean function. -/
theorem classify_total_enumerated :
    ∀ (attrs : JVal),
      (∀ (arg : NodeTypeArg) (k : String),
        mapNodeToSpanKind arg attrs = some k → k ∈ SPAN_KINDS) ∧
      mapNodeToSpanKind .absent attrs = none ∧
      mapNodeToSpanKind .nonString attrs = none := by
  intro attrs
  refine ⟨?_, rfl, rfl⟩
  intro arg k h
  cases arg with
  | absent => cases h
  | nonString => cases h
  | str s =>
    simp only [mapNodeToSpanKind] at h
    by_cases hs : (s == "") = true
    · rw [if_pos hs] at h; cases h
    · rw [if_neg hs] at h
      cases he : exactLookup s with
      | some k0 =>
        rw [he] at h; injection h with h
        exact h ▸ exactLookup_mem_SPAN_KINDS s k0 he
      | none =>
        rw [he] at h
        cases hr : regexFirst (jsToLower s) with
        | some k0 =>
          rw [hr] at h; injection h with h
          exact h ▸ regexFirst_mem_SPAN_KINDS (jsToLower s) k0 hr
        | none =>
          rw [hr] at h
          cases hc : categoryFallback s
              (jsOr (optChain attrs "n8n.node.category")
                    (optChain attrs "n8n.node.category_raw")) with
          | some k0 =>
            rw [hc] at h
            have h2 : (if (k0 == "") = true then (none : Option String) else some k0) = some k := h
            by_cases hk0 : (k0 == "") = true
            · rw [if_pos hk0] at h2; cases h2
            · rw [if_neg hk0] at h2; injection h2 with h2
              exact h2 ▸ categoryFallback_mem_SPAN_KINDS s _ k0 hc
          | none => rw [hc] at h; cases h

/-- Witness for C3 at concrete inputs. -/
theorem classify_total_enumerated_witness :
    "LLM" ∈ SPAN_KINDS ∧ mapNodeToSpanKind .absent JVal.undefVal = none :=
  ⟨(classify_total_enumerated JVal.undefVal).1 (.str "OpenAi") "LLM" (by decide),
   (classify_total_enumerated JVal.undefVal).2.1⟩

theorem beq_empty_false_of_patTrigger {s : String} (ht : patTrigger (jsToLower s) = true) :
    (s == "") = false := by
  cases hEq : s == "" with
  | false => rfl
  | true =>
    have hs : s = "" := by simpa using hEq
    subst hs
    exact absurd ht (by decide)

/-- C1: a step type outside the exact-match table whose lower-cased form
matches both the trigger pattern and the LLM pattern classifies as CHAIN
and never as LLM: the ordered pattern tier puts the trigger rule first. -/
theorem trigger_precedes_llm :
    ∀ (s : String) (attrs : JVal),
      exactLookup s = none →
      patTrigger (jsToLower s) = true →
      patLlm (jsToLower s) = true →
      mapNodeToSpanKind (.str s) attrs = some "CHAIN" ∧
      mapNodeToSpanKind (.str s) attrs ≠ some "LLM" := by
  intro s attrs he ht _
  have hchain : mapNodeToSpanKind (.str s) attrs = some "CHAIN" := by
    have hfind : REGEX_RULES.find? (fun rule => rule.2 (jsToLower s)) =
        some ("CHAIN", patTrigger) := by
      unfold REGEX_RULES
      exact List.find?_cons_of_pos _ ht
    simp only [mapNodeToSpanKind, beq_empty_false_of_patTrigger ht,
      Bool.false_eq_true, if_false, he, regexFirst, hfind, Option.map_some']
  refine ⟨hchain, ?_⟩
  rw [hchain]
  simp

/-- Witness for C1 at the spec's own example shape (`chatTrigger` contains
both `trigger` and `chat`). -/
theorem trigger_precedes_llm_witness :
    exactLookup "chatTrigger" = none ∧
    patTrigger (jsToLower "chatTrigger") = true ∧
    patLlm (jsToLower "chatTrigger") = true ∧
    mapNodeToSpanKind (.str "chatTrigger") JVal.undefVal = some "CHAIN" :=
  ⟨by decide, by decide, by decide,
   (trigger_precedes_llm "chatTrigger" JVal.undefVal (by decide) (by decide) (by decide)).1⟩

/-- C4: a step type present in the exact-match table classifies as the
table's kind, regardless of the attribute bag and of any pattern rule that
would match its lower-cased form: the exact tier is consulted first. -/
theorem exact_table_wins :
    ∀ (t k : String) (attrs : JVal),
      exactLookup t = some k →
      mapNodeToSpanKind (.str t) attrs = some k := by
  intro t k attrs h
  have ht : (t == "") = false := by
    cases hEq : t == "" with
    | false => rfl
    | true =>
      have : t = "" := by simpa using hEq
      subst this
      rw [show exactLookup "" = none by decide] at h
      cases h
  simp only [mapNodeToSpanKind, ht, Bool.false_eq_true, if_false, h]

/-- Witness for C4: `ToolWorkflow` sits in the table's CHAIN entry even
though its lower-cased form contains `tool` and `workflow`, which the
pattern tier would classify differently. -/
theorem exact_table_wins_witness :
    exactLookup "ToolWorkflow" = some "CHAIN" ∧
    patToolRule (jsToLower "ToolWorkflow") = true ∧
    mapNodeToSpanKind (.str "ToolWorkflow") (JVal.obj []) = some "CHAIN" :=
  ⟨by decide, by decide,
   exact_table_wins "ToolWorkflow" "CHAIN" (JVal.obj []) (by decide)⟩

/-- C10: the empty-string step type (a string, hence outside the absent or
non-string guard clause of the spec) is rejected by the same falsiness
guard and yields no match for every attribute bag; the caller then
defaults the span kind to CHAIN. In particular the category fallback is
never consulted for it, even though the fallback itself would map an
empty-typed step of category `Core Nodes` to TOOL. -/
theorem empty_type_no_match :
    ∀ (attrs : JVal),
      mapNodeToSpanKind (.str "") attrs = none ∧
      nodeSpanKindOf true (.str "") attrs = "CHAIN" ∧
      categoryFallback "" (.str "Core Nodes") = some "TOOL" := by
  intro attrs
  exact ⟨rfl, rfl, by decide⟩

/-! ## Truncation (claim C6) -/

/-- C6 counterexample: with cap 5 and the 6-character payload `123456`
(`k = 1`), the stored string is the first 5 characters plus the elision
marker - and its total length is 27, which exceeds the cap, refuting the
claim's clause that the stored payload's length never exceeds the cap. -/
theorem truncation_counterexample :
    truncateIOStr 5 (some "123456") = "12345...[truncated 1 chars]" ∧
    (truncateIOStr 5 (some "123456")).length = 27 ∧
    ¬((truncateIOStr 5 (some "123456")).length ≤ 5) := by
  refine ⟨by decide, by decide, by decide⟩

/-- C6 amended: a payload of length `cap + k` (k > 0) is stored as its
first `cap` characters plus the marker naming the `k` elided characters;
the stored length is `cap` plus the marker length (21 characters plus the
digits of `k`), so it exceeds the cap only by the marker; payloads of
length at most `cap` are returned unchanged. -/
theorem truncation_amended :
    ∀ (cap k : Nat) (s : String),
      0 < k → s.length = cap + k →
      (truncateIOStr cap (some s) =
        jsSlice s cap ++ "...[truncated " ++ toString k ++ " chars]" ∧
       (truncateIOStr cap (some s)).length = cap + 21 + (toString k).length) ∧
      (∀ t : String, t.length ≤ cap → truncateIOStr cap (some t) = t) := by
  intro cap k s hk hlen
  have hnot : ¬(s.length ≤ cap) := by omega
  have hsub : s.length - cap = k := by omega
  have heq : truncateIOStr cap (some s) =
      jsSlice s cap ++ "...[truncated " ++ toString k ++ " chars]" := by
    simp only [truncateIOStr]
    rw [if_neg hnot, hsub]
  refine ⟨⟨heq, ?_⟩, ?_⟩
  · rw [heq]
    have h1 : (jsSlice s cap).length = cap := by
      show (s.toList.take cap).length = cap
      rw [List.length_take]
      have : s.toList.length = cap + k := hlen
      omega
    rw [String.length_append, String.length_append, String.length_append, h1]
    have h2 : ("...[truncated " : String).length = 14 := rfl
    have h3 : (" chars]" : String).length = 7 := rfl
    rw [h2, h3]
    omega
  · intro t htle
    simp only [truncateIOStr]
    rw [if_pos htle]

/-- Witness for C6's amended claim at cap 5, k 1. -/
theorem truncation_amended_witness :
    truncateIOStr 5 (some "123456") =
      jsSlice "123456" 5 ++ "...[truncated " ++ toString 1 ++ " chars]" ∧
    truncateIOStr 5 (some "12345") = "12345" :=
  ⟨(truncation_amended 5 1 "123456" (by decide) (by decide)).1.1,
   (truncation_amended 5 1 "123456" (by decide) (by decide)).2 "12345" (by decide)⟩

/-! ## Segment sanitization (claim C8) -/

/-- C8 counterexample: the source substitutes a hyphen for each character
outside `[A-Za-z0-9._-]` (`replace(/[^a-zA-Z0-9._-]/g, '-')`); the claim
says such characters are stripped. On `a@b` the code yields `a-b`, while
the claim's reading yields `ab`. -/
theorem sanitize_strip_counterexample :
    sanitizeSegment (some "a@b") "unknown" = "a-b" ∧
    sanitizeSegmentStripClaim (some "a@b") "unknown" = "ab" ∧
    ("a-b" : String) ≠ "ab" := by
  refine ⟨by decide, by decide, by decide⟩

theorem collapseWsAux_eq_collapseRuns :
    ∀ l : List Char,
      collapseWsAux true l = collapseRuns (l.dropWhile Char.isWhitespace) ∧
      collapseWsAux false l = collapseRuns l := by
  intro l
  induction l with
  | nil =>
    constructor <;> simp [collapseWsAux, collapseRuns, List.dropWhile]
  | cons c cs ih =>
    by_cases hws : c.isWhitespace
    · constructor
      · rw [show collapseWsAux true (c :: cs) = collapseWsAux true cs by
            simp [collapseWsAux, hws]]
        rw [show (c :: cs).dropWhile Char.isWhitespace =
            cs.dropWhile Char.isWhitespace by simp [List.dropWhile, hws]]
        exact ih.1
      · rw [show collapseWsAux false (c :: cs) = '-' :: collapseWsAux true cs by
            simp [collapseWsAux, hws]]
        rw [ih.1, collapseRuns]
        simp [hws]
    · constructor
      · rw [show collapseWsAux true (c :: cs) = c :: collapseWsAux false cs by
            simp [collapseWsAux, hws]]
        rw [show (c :: cs).dropWhile Char.isWhitespace = c :: cs by
            simp [List.dropWhile, hws]]
        rw [ih.2, collapseRuns]
        simp [hws]
      · rw [show collapseWsAux false (c :: cs) = c :: collapseWsAux false cs by
            simp [collapseWsAux, hws]]
        rw [ih.2, collapseRuns]
        simp [hws]

/-- C8 amended: `sanitizeSegment` trims, collapses each maximal whitespace
run to a single hyphen, substitutes a hyphen for (rather than strips) each
character outside `[A-Za-z0-9._-]`, caps the result to 80 characters, and
substitutes the default token when the result is empty or the value
absent; consequently every non-default result is at most 80 characters of
the allowed class. -/
theorem sanitize_amended :
    ∀ (v : Option String) (d : String),
      sanitizeSegment v d = sanitizeSegmentRunsSpec v d ∧
      sanitizeSegment none d = d ∧
      sanitizeSegment (some "") d = d ∧
      (sanitizeSegment v d = d ∨
        ((sanitizeSegment v d).length ≤ 80 ∧
         (sanitizeSegment v d).toList.all isSegmentChar = true)) := by
  intro v d
  refine ⟨?_, rfl, rfl, ?_⟩
  · cases v with
    | none => rfl
    | some s =>
      simp only [sanitizeSegment, sanitizeSegmentRunsSpec]
      rw [(collapseWsAux_eq_collapseRuns (trimChars s.toList)).2]
  · cases v with
    | none => exact Or.inl rfl
    | some s =>
      by_cases hs : (s == "") = true
      · left
        simp [sanitizeSegment, hs]
      · by_cases hc : collapseWsAux false (trimChars s.data) = []
        · left
          simp [sanitizeSegment, hs, hc]
        · right
          have hval : sanitizeSegment (some s) d =
              String.mk (((collapseWsAux false (trimChars s.toList)).map
                (fun c => if isSegmentChar c then c else '-')).take 80) := by
            simp [sanitizeSegment, hs, hc]
          rw [hval]
          constructor
          · show ((((collapseWsAux false (trimChars s.toList)).map
              (fun c => if isSegmentChar c then c else '-')).take 80)).length ≤ 80
            rw [List.length_take]
            omega
          · show ((((collapseWsAux false (trimChars s.toList)).map
              (fun c => if isSegmentChar c then c else '-')).take 80)).all isSegmentChar = true
            rw [List.all_eq_true]
            intro c hcmem
            have hmap := List.mem_of_mem_take hcmem
            obtain ⟨a, _, ha⟩ := List.mem_map.mp hmap
            rw [← ha]
            by_cases hseg : isSegmentChar a = true
            · rw [if_pos hseg]; exact hseg
            · rw [if_neg hseg]; decide

/-! ## Extractors (claims C5 and C7) -/

/-- C5: both extractors are total functions of their input; whenever the
extraction body raises, the extractor returns the diagnostic record
`{_error: <message>}` instead of propagating, and whenever the body
succeeds its value is returned unchanged. (The output extractor's body
guards every iteration with `Array.isArray`, so in the model it cannot
raise; the input extractor's body can, as the witness shows.) -/
theorem extractors_never_propagate :
    ∀ (v : JVal),
      (∀ e, extractNodeInputBody v = .error e →
        extractNodeInputFromExecutionData v = .obj [("_error", .str e)]) ∧
      (∀ r, extractNodeInputBody v = .ok r →
        extractNodeInputFromExecutionData v = r) ∧
      (∀ e, extractNodeOutputBody v = .error e →
        extractNodeOutput v = .obj [("_error", .str e)]) ∧
      (∀ r, extractNodeOutputBody v = .ok r → extractNodeOutput v = r) := by
  intro v
  refine ⟨?_, ?_, ?_, ?_⟩ <;> intro x h <;>
    simp [extractNodeInputFromExecutionData, extractNodeOutput, h]

/-- Witness for C5: a `main` value that is truthy and has a truthy
`length` but is not iterable makes the input-extraction body throw; the
extractor converts the exception into the `_error` record. -/
theorem extractors_never_propagate_witness :
    extractNodeInputBody
        (JVal.obj [("data", JVal.obj [("main", JVal.obj [("length", JVal.num 1)])])]) =
      .error "TypeError: value is not iterable" ∧
    extractNodeInputFromExecutionData
        (JVal.obj [("data", JVal.obj [("main", JVal.obj [("length", JVal.num 1)])])]) =
      JVal.obj [("_error", JVal.str "TypeError: value is not iterable")] :=
  ⟨rfl,
   (extractors_never_propagate
      (JVal.obj [("data", JVal.obj [("main", JVal.obj [("length", JVal.num 1)])])])).1
     "TypeError: value is not iterable" rfl⟩

/-- C7 counterexample: with records under two named connections
(`main` holding `{a: 1}` and `other` holding `{b: 2}`), the source
extractor reads only `executionData.data.main` and returns the single
`main` record, whereas the claim's reading - every record across every
named connection - yields the two-element sequence. -/
theorem input_extractor_counterexample :
    extractNodeInputFromExecutionData
        (JVal.obj [("data", JVal.obj
          [("main", JVal.arr [JVal.arr [JVal.obj [("json", JVal.obj [("a", JVal.num 1)])]]]),
           ("other", JVal.arr [JVal.arr [JVal.obj [("json", JVal.obj [("b", JVal.num 2)])]]])])]) =
      JVal.obj [("a", JVal.num 1)] ∧
    extractNodeInputClaimed
        (JVal.obj [("data", JVal.obj
          [("main", JVal.arr [JVal.arr [JVal.obj [("json", JVal.obj [("a", JVal.num 1)])]]]),
           ("other", JVal.arr [JVal.arr [JVal.obj [("json", JVal.obj [("b", JVal.num 2)])]]])])]) =
      JVal.arr [JVal.obj [("a", JVal.num 1)], JVal.obj [("b", JVal.num 2)]] ∧
    JVal.obj [("a", JVal.num 1)] ≠
      JVal.arr [JVal.obj [("a", JVal.num 1)], JVal.obj [("b", JVal.num 2)]] := by
  refine ⟨rfl, rfl, fun h => JVal.noConfusion h⟩

theorem collectAllConns_arrs (conns : List (List JVal)) (acc : List JVal) :
    collectAllConns acc (conns.map JVal.arr) =
      .ok (acc ++ (conns.map collectConnItems).flatten) := by
  induction conns generalizing acc with
  | nil => simp [collectAllConns]
  | cons c cs ih =>
    simp only [List.map_cons, collectAllConns, truthy, jsIterate, ih,
      List.flatten_cons, List.append_assoc]
    rfl

/-- C7 amended: the input extractor collects every record across every
slot of the `main` connection only (records under other connection names
are ignored), flattens them in order, unwraps a single record, and yields
no value (`undefined`) when the flattened sequence is empty. -/
theorem input_extractor_main_only :
    ∀ (conns : List (List JVal)) (u : JVal),
      extractNodeInputFromExecutionData
          (JVal.obj [("data", JVal.obj
            [("main", JVal.arr (conns.map JVal.arr)), ("aux", u)])]) =
        (match (conns.map collectConnItems).flatten with
         | [] => JVal.undefVal
         | [x] => x
         | xs => JVal.arr xs) := by
  intro conns u
  cases conns with
  | nil => rfl
  | cons c cs =>
    have hlen : truthy (getField (JVal.arr ((c :: cs).map JVal.arr)) "length") = true := by
      simp [getField, truthy]
      omega
    have hbody : extractNodeInputBody (JVal.obj [("data", JVal.obj
        [("main", JVal.arr ((c :: cs).map JVal.arr)), ("aux", u)])]) =
        (if truthy (getField (JVal.arr ((c :: cs).map JVal.arr)) "length") = false
         then Except.ok JVal.undefVal
         else
           match collectAllConns [] ((c :: cs).map JVal.arr) with
           | .error e => .error e
           | .ok allItems =>
             match allItems with
             | [] => .ok JVal.undefVal
             | [x] => .ok x
             | xs => .ok (JVal.arr xs)) := rfl
    simp only [extractNodeInputFromExecutionData, hbody, hlen]
    rw [collectAllConns_arrs (c :: cs) []]
    simp only [List.nil_append]
    cases hfl : ((c :: cs).map collectConnItems).flatten with
    | nil => simp
    | cons x xs =>
      cases xs with
      | nil => simp
      | cons y ys => simp

/-! ## Span lifecycle (claim C2) and initialization guard (claim C9) -/

/-- C2: for every invocation of either wrapped entry point and every
outcome of the wrapped call - resolution without an engine-reported error,
resolution carrying a domain error, or rejection - the span started for
that invocation is ended exactly once, and its final status is ok exactly
when no error occurred. (The step result carries no domain-error channel,
so for `runNode` the outcomes are resolution and rejection.) -/
theorem span_lifecycle_exactly_once :
    ∀ (capture : Bool),
      (∀ (o : WfOutcome),
        (processRunExecutionDataSpan capture o).endCount = 1 ∧
        ((finalStatus (processRunExecutionDataSpan capture o) = SpanStatusCode.ok) ↔
          (match o with
           | .resolved r => truthy (wfDomainError r) = false
           | .rejected _ => False))) ∧
      (∀ (spanKind : String) (executionData : JVal) (o : NodeOutcome),
        (runNodeSpan capture spanKind executionData o).endCount = 1 ∧
        ((finalStatus (runNodeSpan capture spanKind executionData o) = SpanStatusCode.ok) ↔
          (match o with
           | .resolved _ => True
           | .rejected _ => False))) := by
  intro capture
  constructor
  · intro o
    cases o with
    | resolved r =>
      cases capture <;>
        by_cases hd : truthy (wfDomainError r) = true <;>
          simp only [processRunExecutionDataSpan, wfOnResolve, hd, if_true, if_false,
            Bool.false_eq_true, Bool.true_eq_false, ite_true, ite_false] <;>
          (try cases hcb : wfCaptureBody r) <;>
          (repeat' split) <;>
          simp_all [startSpan, setStatus, setAttr, recordException, endSpan,
            finalStatus, hasAttr, wfInitialAttrKeys]
    | rejected e =>
      cases capture <;>
        simp [processRunExecutionDataSpan, wfOnReject, startSpan, setStatus,
          recordException, endSpan, finalStatus]
  · intro spanKind executionData o
    have hfold : ∀ (ks : List String) (sp : SpanLog),
        (ks.foldl (fun s k => setAttr k s) sp).statusLog = sp.statusLog ∧
        (ks.foldl (fun s k => setAttr k s) sp).endCount = sp.endCount := by
      intro ks
      induction ks with
      | nil => intro sp; exact ⟨rfl, rfl⟩
      | cons k ks ih =>
        intro sp
        exact ih (setAttr k sp)
    cases o with
    | resolved r =>
      cases capture <;>
        simp only [runNodeSpan, Bool.false_eq_true, Bool.true_eq_false, if_true,
          if_false, ite_true, ite_false] <;>
        simp [endSpan, setStatus, finalStatus, startSpan,
          (hfold _ _).1, (hfold _ _).2, List.getLast?]
    | rejected e =>
      cases capture with
      | false =>
        simp [runNodeSpan, endSpan, setStatus, setAttr, recordException,
          finalStatus, startSpan]
      | true =>
        have h2 := hfold (nodeCaptureInputAttrs spanKind executionData)
          (startSpan nodeInitialAttrKeys)
        constructor
        · have hend : (runNodeSpan true spanKind executionData (NodeOutcome.rejected e)).endCount =
              (List.foldl (fun s k => setAttr k s) (startSpan nodeInitialAttrKeys)
                (nodeCaptureInputAttrs spanKind executionData)).endCount + 1 := rfl
          rw [hend, h2.2]
          rfl
        · have hst : finalStatus (runNodeSpan true spanKind executionData (NodeOutcome.rejected e)) =
              ((List.foldl (fun s k => setAttr k s) (startSpan nodeInitialAttrKeys)
                  (nodeCaptureInputAttrs spanKind executionData)).statusLog ++
                [SpanStatusCode.error]).getLast?.getD SpanStatusCode.unset := rfl
          rw [hst, h2.1]
          simp [startSpan]

/-- Witness for C2 at concrete outcomes. -/
theorem span_lifecycle_exactly_once_witness :
    (processRunExecutionDataSpan true (WfOutcome.resolved (JVal.obj []))).endCount = 1 ∧
    (runNodeSpan false "CHAIN" JVal.undefVal (NodeOutcome.rejected (JVal.str "boom"))).endCount = 1 :=
  ⟨((span_lifecycle_exactly_once true).1 (WfOutcome.resolved (JVal.obj []))).1,
   ((span_lifecycle_exactly_once false).2 "CHAIN" JVal.undefVal
      (NodeOutcome.rejected (JVal.str "boom"))).1⟩

/-- C9: the initialization guard is idempotent: a load that observes any
of the three process-wide signals set is a no-op; the first load of a
fresh process sets all three signals (in-memory flag, environment flag,
SDK flag); and any positive number of module loads in one process
installs each of the two engine entry-point wrappers exactly once. -/
theorem init_guard_installs_once :
    (∀ s : ProcState, alreadyInitialized s = true → loadTracingModule s = s) ∧
    ((loadTracingModule freshProcess).globalFlag = true ∧
     (loadTracingModule freshProcess).envFlag = some "true" ∧
     (loadTracingModule freshProcess).sdkFlag = true) ∧
    (∀ n : Nat, 0 < n →
      (Nat.iterate loadTracingModule n freshProcess).installedProcessRun = 1 ∧
      (Nat.iterate loadTracingModule n freshProcess).installedRunNode = 1) := by
  have hstable : ∀ s : ProcState, alreadyInitialized s = true → loadTracingModule s = s := by
    intro s h
    unfold loadTracingModule
    rw [if_pos h]
  refine ⟨hstable, ⟨rfl, rfl, rfl⟩, ?_⟩
  have hiter : ∀ (k : Nat) (x : ProcState), alreadyInitialized x = true →
      Nat.iterate loadTracingModule k x = x := by
    intro k
    induction k with
    | zero => intro x _; rfl
    | succ p ih =>
      intro x hx
      show Nat.iterate loadTracingModule p (loadTracingModule x) = x
      rw [hstable x hx]
      exact ih x hx
  intro n hn
  obtain ⟨m, rfl⟩ : ∃ m, n = m + 1 := ⟨n - 1, by omega⟩
  have h1 : Nat.iterate loadTracingModule (m + 1) freshProcess =
      loadTracingModule freshProcess := by
    show Nat.iterate loadTracingModule m (loadTracingModule freshProcess) =
      loadTracingModule freshProcess
    exact hiter m (loadTracingModule freshProcess) rfl
  rw [h1]
  exact ⟨rfl, rfl⟩

/-- Witness for C9: a process whose in-memory flag is set ignores a new
load, and three loads of a fresh process install the wrappers once. -/
theorem init_guard_installs_once_witness :
    loadTracingModule ⟨true, none, false, 0, 0⟩ = ⟨true, none, false, 0, 0⟩ ∧
    (Nat.iterate loadTracingModule 3 freshProcess).installedProcessRun = 1 :=
  ⟨init_guard_installs_once.1 ⟨true, none, false, 0, 0⟩ (by decide),
   (init_guard_installs_once.2.2 3 (by decide)).1⟩

/-- Witness for C7's amended claim at a concrete two-slot `main` input. -/
theorem input_extractor_main_only_witness :
    extractNodeInputFromExecutionData
        (JVal.obj [("data", JVal.obj
          [("main", JVal.arr ([[JVal.obj [("json", JVal.obj [("a", JVal.num 1)])]],
              [JVal.obj [("json", JVal.obj [("b", JVal.num 2)])]]].map JVal.arr)),
           ("aux", JVal.undefVal)])]) =
      JVal.arr [JVal.obj [("a", JVal.num 1)], JVal.obj [("b", JVal.num 2)]] :=
  input_extractor_main_only
    [[JVal.obj [("json", JVal.obj [("a", JVal.num 1)])]],
     [JVal.obj [("json", JVal.obj [("b", JVal.num 2)])]]] JVal.undefVal

/-- Witness for C8's amended claim at concrete inputs. -/
theorem sanitize_amended_witness :
    sanitizeSegment (some "a b@c") "unknown" = sanitizeSegmentRunsSpec (some "a b@c") "unknown" ∧
    sanitizeSegment none "unknown" = "unknown" :=
  ⟨(sanitize_amended (some "a b@c") "unknown").1,
   (sanitize_amended (some "x") "unknown").2.1⟩

/-- Witness for C10 with the `Core Nodes` category attribute present. -/
theorem empty_type_no_match_witness :
    mapNodeToSpanKind (.str "")
        (JVal.obj [("n8n.node.category", JVal.str "Core Nodes")]) = none ∧
    nodeSpanKindOf true (.str "")
        (JVal.obj [("n8n.node.category", JVal.str "Core Nodes")]) = "CHAIN" :=
  ⟨(empty_type_no_match (JVal.obj [("n8n.node.category", JVal.str "Core Nodes")])).1,
   (empty_type_no_match (JVal.obj [("n8n.node.category", JVal.str "Core Nodes")])).2.1⟩
